import Mathlib

/-!
Shallow embedding of `tubular/segment_api.py` (Segment API call wrappers).

The module batches learner identifiers, submits bulk GDPR-delete requests
with a layered retry policy, and polls deletion status.  We embed:

* learner dicts as association lists of string keys to Python values;
* the JSON values a response body can decode to;
* the network as a stream `Nat → NetEvent` of per-attempt outcomes,
  threaded through the retry layers by an attempt cursor;
* `_http_status_giveup`, the `backoff` retry layers of `_retry_segment_api`,
  `delete_learners` and `get_bulk_delete_status` as cursor-passing functions
  whose results record the observable effects: the POST calls made, the
  regulate ids logged, and how the call ended (normal return, the logged
  too-many-values early return, or a raised exception).
-/

namespace SegmentApi

/-- Python scalar values that can appear in a learner dict
(`id` is an integer from the LMS, usernames are strings);
`text_type` stringifies either. -/
inductive PyVal where
  | str (s : String)
  | int (n : Int)
deriving DecidableEq, Repr

/-- `six.text_type(v)`: stringification applied to each identifier value. -/
def text_type : PyVal → String
  | .str s => s
  | .int n => toString n

/-- A learner dict: association list of keys to values (first binding wins,
as Python dict keys are unique). -/
abbrev Learner := List (String × PyVal)

/-- Python `d[key]` lookup result for a learner dict. -/
def dictGet (l : Learner) (k : String) : Option PyVal :=
  (l.find? (fun p => p.1 == k)).map (fun p => p.2)

/-- Python `key in d` membership test for a learner dict. -/
def dictHas (l : Learner) (k : String) : Bool :=
  (dictGet l k).isSome

/-- Maximum number of tries on Segment API calls (`MAX_TRIES`). -/
def MAX_TRIES : Nat := 4

/-- `REQUIRED_IDENTIFYING_KEYS`: required keys in the learner dict. -/
def REQUIRED_IDENTIFYING_KEYS : List String := ["id", "original_username"]

/-- `OPTIONAL_IDENTIFYING_KEYS`: optional keys in the learner dict. -/
def OPTIONAL_IDENTIFYING_KEYS : List String := ["ecommerce_segment_id"]

/-- `MAXIMUM_USERS_IN_DELETE_REQUEST`: maximum flattened identifier values
in one bulk delete request. -/
def MAXIMUM_USERS_IN_DELETE_REQUEST : Nat := 5000

/-- JSON values a response body can parse to (`resp.json()`). -/
inductive Json where
  | null
  | bool (b : Bool)
  | num (n : Int)
  | str (s : String)
  | arr (xs : List Json)
  | obj (fields : List (String × Json))

/-- Lookup of a string key in a JSON object's field list. -/
def lookupField (fields : List (String × Json)) (k : String) : Option Json :=
  (fields.find? (fun p => p.1 == k)).map (fun p => p.2)

/-- Errors Python raises for `j[key]` on a parsed JSON value: `KeyError`
when `j` is a dict without the key, `TypeError` when `j` is not a dict. -/
inductive LookupErr where
  | keyError
  | typeError
deriving DecidableEq, Repr

/-- Python subscript `j[k]` on a parsed JSON value. -/
def jsonLookup (j : Json) (k : String) : Except LookupErr Json :=
  match j with
  | .obj fields =>
    match lookupField fields k with
    | some v => .ok v
    | none => .error .keyError
  | _ => .error .typeError

/-- An HTTP response: status code, the JSON value `resp.json()` decodes to
(`none` models a `JSONDecodeError`), and the raw `resp.text`. -/
structure HttpResponse where
  status : Nat
  json : Option Json
  text : String

/-- One network attempt either yields a response or times out
(`requests.exceptions.Timeout`). -/
inductive NetEvent where
  | response (r : HttpResponse)
  | timeout

/-- Exceptions escaping one raw call (`requests.post`/`get` followed by
`raise_for_status`). -/
inductive CallExc where
  | httpError (r : HttpResponse)
  | timeout

/-- One raw HTTP call at attempt cursor `k`: consumes one network event;
`raise_for_status` raises `HTTPError` exactly for statuses 400–599. -/
def rawCall (net : Nat → NetEvent) (k : Nat) :
    Except CallExc HttpResponse × Nat :=
  match net k with
  | .timeout => (.error .timeout, k + 1)
  | .response r =>
    if 400 ≤ r.status ∧ r.status < 600 then (.error (.httpError r), k + 1)
    else (.ok r, k + 1)

/-- `_http_status_giveup(exc)`: give up backoff unless the status is 429 or
in 500–599 (`not 429 == status and not 500 <= status < 600`). -/
def _http_status_giveup (status : Nat) : Bool :=
  decide (¬ 429 = status) && decide (¬ (500 ≤ status ∧ status < 600))

/-- The `backoff.on_exception(_wait_30_seconds, Timeout, max_tries=MAX_TRIES)`
layer of `_retry_segment_api`: `tries` is the number of calls still
allowed; a `Timeout` is retried until the calls are used up, any other
outcome passes through. -/
def withTimeoutRetry (net : Nat → NetEvent) :
    Nat → Nat → Except CallExc HttpResponse × Nat
  | 0, k => (.error .timeout, k)
  | tries + 1, k =>
    match rawCall net k with
    | (.error .timeout, kk) =>
      if tries = 0 then (.error .timeout, kk)
      else withTimeoutRetry net tries kk
    | other => other

/-- The `backoff.on_exception(backoff.expo, HTTPError, max_tries=MAX_TRIES,
giveup=_http_status_giveup)` layer: wraps the timeout layer; an
`HTTPError` is retried while calls remain (at least two allowed calls)
and `_http_status_giveup` does not hold, any other outcome passes
through. -/
def withHttpRetry (net : Nat → NetEvent) : Nat → Nat →
    Except CallExc HttpResponse × Nat
  | tries + 2, k =>
    match withTimeoutRetry net MAX_TRIES k with
    | (.error (.httpError r), kk) =>
      if _http_status_giveup r.status then (.error (.httpError r), kk)
      else withHttpRetry net (tries + 1) kk
    | other => other
  | _, k => withTimeoutRetry net MAX_TRIES k

/-- `_call_segment_post` (and `_call_segment_get`): the raw call behind the
full `_retry_segment_api` chain.  The outermost `JSONDecodeError` layer can
never fire because `resp.json()` is not called inside the decorated
function, so the chain reduces to the HTTP layer over the timeout layer. -/
def _call_segment_post (net : Nat → NetEvent) (k : Nat) :
    Except CallExc HttpResponse × Nat :=
  withHttpRetry net MAX_TRIES k

/-- `_call_segment_get`: same retry chain as `_call_segment_post` (the two
differ only in HTTP verb and headers, which the model abstracts). -/
def _call_segment_get (net : Nat → NetEvent) (k : Nat) :
    Except CallExc HttpResponse × Nat :=
  withHttpRetry net MAX_TRIES k

/-- The value bound to `resp_json` at the moment the except-clause of
`delete_learners` fires: the initial empty string, the raw `resp.text`
after a decode failure, or the parsed JSON body. -/
inductive RespVal where
  | empty
  | text (s : String)
  | json (j : Json)

/-- Exceptions `delete_learners` can raise: an uncaught `KeyError` from a
missing dict key, an uncaught `IndexError`, an uncaught `Timeout` after
retry exhaustion, or the wrapped `Exception(err)` built from the window's
start/end indices and the current `resp_json` value. -/
inductive DelErr where
  | keyError (k : String)
  | indexError
  | timeoutExc
  | wrapped (startIdx endIdx : Nat) (content : RespVal)

/-- Python `learners[idx]` on the learner list (non-negative index). -/
def indexGet (learners : List Learner) (i : Nat) : Except DelErr Learner :=
  match learners[i]? with
  | some l => .ok l
  | none => .error .indexError

/-- Python `learners[idx][id_key]`, raising `KeyError` when absent. -/
def dictGetE (l : Learner) (k : String) : Except DelErr PyVal :=
  match dictGet l k with
  | some v => .ok v
  | none => .error (.keyError k)

/-- The dict accesses evaluated by the `LOG.info` call at the top of each
window: `learners[start_idx]['id']`, `learners[start_idx]['original_username']`,
`learners[end_idx]['id']`, `learners[end_idx]['original_username']`,
in that order. -/
def logLineAccess (learners : List Learner) (s e : Nat) : Except DelErr Unit :=
  match indexGet learners s with
  | .error err => .error err
  | .ok ls =>
    match dictGetE ls "id" with
    | .error err => .error err
    | .ok _ =>
      match dictGetE ls "original_username" with
      | .error err => .error err
      | .ok _ =>
        match indexGet learners e with
        | .error err => .error err
        | .ok le =>
          match dictGetE le "id" with
          | .error err => .error err
          | .ok _ =>
            match dictGetE le "original_username" with
            | .error err => .error err
            | .ok _ => .ok ()

/-- The inner `for id_key in REQUIRED_IDENTIFYING_KEYS` loop for one
learner: appends `text_type(learners[idx][id_key])` for each key, raising
`KeyError` on a missing key. -/
def keyVals (l : Learner) : List String → Except DelErr (List String)
  | [] => .ok []
  | k :: ks =>
    match dictGet l k with
    | none => .error (.keyError k)
    | some v => (keyVals l ks).map (fun rest => text_type v :: rest)

/-- The inner `for id_key in OPTIONAL_IDENTIFYING_KEYS` loop for one
learner: appends `text_type(learners[idx][id_key])` for each present key. -/
def optKeyVals (l : Learner) (keys : List String) : List String :=
  keys.filterMap (fun k => (dictGet l k).map text_type)

/-- All identifier values one learner contributes to `learner_vals`:
required keys then present optional keys, in field-declaration order. -/
def learnerVals (l : Learner) : Except DelErr (List String) :=
  (keyVals l REQUIRED_IDENTIFYING_KEYS).map
    (fun req => req ++ optKeyVals l OPTIONAL_IDENTIFYING_KEYS)

/-- The `for idx in range(idx, idx + count)` flattening loop building
`learner_vals`, iterating `count` times. -/
def flattenCount (learners : List Learner) : Nat → Nat →
    Except DelErr (List String)
  | _, 0 => .ok []
  | idx, count + 1 =>
    match indexGet learners idx with
    | .error err => .error err
    | .ok l =>
      match learnerVals l with
      | .error err => .error err
      | .ok vs =>
        match flattenCount learners (idx + 1) count with
        | .error err => .error err
        | .ok rest => .ok (vs ++ rest)

/-- The `for idx in range(idx, stop)` flattening loop building
`learner_vals` (the call site uses `stop = end_idx + 1`). -/
def flattenWindow (learners : List Learner) (idx stop : Nat) :
    Except DelErr (List String) :=
  flattenCount learners idx (stop - idx)

/-- One POST request issued to the bulk delete endpoint: the window's
start/end indices and the flattened `values` list of the request body. -/
structure PostCall where
  startIdx : Nat
  endIdx : Nat
  vals : List String
deriving DecidableEq, Repr

/-- How a `delete_learners` call ends: falling out of the while loop
(returning `None`), the logged too-many-values early `return`, a raised
exception, or fuel exhaustion (modelling divergence of the while loop). -/
inductive DeleteOutcome where
  | completed
  | configError (count : Nat)
  | raised (e : DelErr)
  | outOfFuel

/-- Observable result of `delete_learners`: how it ended, the POST calls
made (in order), and the regulate ids logged by the success path. -/
structure DeleteResult where
  outcome : DeleteOutcome
  posts : List PostCall
  queued : List Json

/-- The `while curr_idx < len(learners)` loop of `delete_learners`.
`fuel` bounds the number of iterations (the Python loop runs unboundedly;
every caller below supplies enough fuel whenever `chunk_size ≥ 1`). -/
def deleteLoop (learners : List Learner) (chunk_size : Nat)
    (net : Nat → NetEvent) : Nat → Nat → Nat → DeleteResult
  | 0, _, _ => ⟨.outOfFuel, [], []⟩
  | fuel + 1, curr, k =>
    if curr < learners.length then
      let start_idx := curr
      let end_idx := min (start_idx + chunk_size - 1) (learners.length - 1)
      match logLineAccess learners start_idx end_idx with
      | .error e => ⟨.raised e, [], []⟩
      | .ok _ =>
        match flattenWindow learners start_idx (end_idx + 1) with
        | .error e => ⟨.raised e, [], []⟩
        | .ok learner_vals =>
          if MAXIMUM_USERS_IN_DELETE_REQUEST ≤ learner_vals.length then
            ⟨.configError learner_vals.length, [], []⟩
          else
            let post : PostCall := ⟨start_idx, end_idx, learner_vals⟩
            match _call_segment_post net k with
            | (.error (.httpError _), _) =>
              ⟨.raised (.wrapped start_idx end_idx .empty), [post], []⟩
            | (.error .timeout, _) =>
              ⟨.raised .timeoutExc, [post], []⟩
            | (.ok resp, kk) =>
              match resp.json with
              | none =>
                ⟨.raised (.wrapped start_idx end_idx (.text resp.text)),
                  [post], []⟩
              | some j =>
                match jsonLookup j "regulate_id" with
                | .error _ =>
                  ⟨.raised (.wrapped start_idx end_idx (.json j)), [post], []⟩
                | .ok rid =>
                  let rest :=
                    deleteLoop learners chunk_size net fuel (curr + chunk_size) kk
                  ⟨rest.outcome, post :: rest.posts, rid :: rest.queued⟩
    else
      ⟨.completed, [], []⟩

/-- `delete_learners(learners, chunk_size, beginning_idx)`.  Fuel
`learners.length + 1` suffices for every positive `chunk_size`. -/
def delete_learners (learners : List Learner) (chunk_size : Nat)
    (beginning_idx : Nat) (net : Nat → NetEvent) : DeleteResult :=
  deleteLoop learners chunk_size net (learners.length + 1) beginning_idx 0

/-- `delete_learner(learner)`: a one-element batch with chunk size 1. -/
def delete_learner (learner : Learner) (net : Nat → NetEvent) : DeleteResult :=
  delete_learners [learner] 1 0 net

/-- Exceptions `get_bulk_delete_status` can raise: an escaped call
exception, or the `JSONDecodeError` from `resp.json()` (raised outside the
retried function, hence never retried). -/
inductive GetRaise where
  | callErr (e : CallExc)
  | decodeError

/-- Observable result of `get_bulk_delete_status`: the Python return value
(`none` is Python's `None`) or the raised exception, the parsed body
passed to `LOG.info`, and the final attempt cursor. -/
structure GetResult where
  ret : Except GetRaise (Option Json)
  statusLog : Option Json
  cursor : Nat

/-- `get_bulk_delete_status(bulk_delete_id)`: issues the GET through the
retry chain, parses the body, logs it, and falls off the end of the
function (returning `None`). -/
def get_bulk_delete_status (net : Nat → NetEvent) (k : Nat) : GetResult :=
  match _call_segment_get net k with
  | (.error e, kk) => ⟨.error (.callErr e), none, kk⟩
  | (.ok resp, kk) =>
    match resp.json with
    | none => ⟨.error .decodeError, none, kk⟩
    | some j => ⟨.ok none, some j, kk⟩

/-! ### Lemmas about the retry layers -/

lemma giveup_false_iff (s : Nat) :
    _http_status_giveup s = false ↔ (s = 429 ∨ (500 ≤ s ∧ s < 600)) := by
  simp [_http_status_giveup]
  omega

lemma rawCall_ok {net : Nat → NetEvent} {k : Nat} {r : HttpResponse}
    (hk : net k = .response r) (hs : r.status < 400) :
    rawCall net k = (.ok r, k + 1) := by
  simp only [rawCall, hk]
  rw [if_neg (by omega)]

lemma rawCall_err {net : Nat → NetEvent} {k : Nat} {r : HttpResponse}
    (hk : net k = .response r) (h4 : 400 ≤ r.status) (h6 : r.status < 600) :
    rawCall net k = (.error (.httpError r), k + 1) := by
  simp only [rawCall, hk]
  rw [if_pos ⟨h4, h6⟩]

lemma withTimeoutRetry_ok {net : Nat → NetEvent} {k k' : Nat} {r : HttpResponse}
    {tries : Nat} (ht : 1 ≤ tries) (h : rawCall net k = (.ok r, k')) :
    withTimeoutRetry net tries k = (.ok r, k') := by
  obtain ⟨t, rfl⟩ : ∃ t, tries = t + 1 := ⟨tries - 1, by omega⟩
  simp [withTimeoutRetry, h]

lemma withTimeoutRetry_http {net : Nat → NetEvent} {k k' : Nat}
    {r : HttpResponse} {tries : Nat} (ht : 1 ≤ tries)
    (h : rawCall net k = (.error (.httpError r), k')) :
    withTimeoutRetry net tries k = (.error (.httpError r), k') := by
  obtain ⟨t, rfl⟩ : ∃ t, tries = t + 1 := ⟨tries - 1, by omega⟩
  simp [withTimeoutRetry, h]

lemma withHttpRetry_ok {net : Nat → NetEvent} {k k' : Nat} {r : HttpResponse}
    (tries : Nat) (h : withTimeoutRetry net MAX_TRIES k = (.ok r, k')) :
    withHttpRetry net tries k = (.ok r, k') := by
  match tries with
  | 0 => simp [withHttpRetry, h]
  | 1 => simp [withHttpRetry, h]
  | t + 2 => simp [withHttpRetry, h]

lemma withHttpRetry_giveup {net : Nat → NetEvent} {k k' : Nat}
    {r : HttpResponse} (tries : Nat)
    (h : withTimeoutRetry net MAX_TRIES k = (.error (.httpError r), k'))
    (hg : _http_status_giveup r.status = true) :
    withHttpRetry net tries k = (.error (.httpError r), k') := by
  match tries with
  | 0 => simp [withHttpRetry, h]
  | 1 => simp [withHttpRetry, h]
  | t + 2 => simp [withHttpRetry, h, hg]

lemma withHttpRetry_last {net : Nat → NetEvent} {k k' : Nat}
    {r : HttpResponse} {tries : Nat} (ht : tries ≤ 1)
    (h : withTimeoutRetry net MAX_TRIES k = (.error (.httpError r), k')) :
    withHttpRetry net tries k = (.error (.httpError r), k') := by
  obtain h0 | h1 : tries = 0 ∨ tries = 1 := by omega
  · subst h0; simp [withHttpRetry, h]
  · subst h1; simp [withHttpRetry, h]

lemma withHttpRetry_retry {net : Nat → NetEvent} {k k' : Nat}
    {r : HttpResponse} {tries : Nat}
    (h : withTimeoutRetry net MAX_TRIES k = (.error (.httpError r), k'))
    (hg : _http_status_giveup r.status = false) (ht : 2 ≤ tries) :
    withHttpRetry net tries k = withHttpRetry net (tries - 1) k' := by
  obtain ⟨t, rfl⟩ : ∃ t, tries = t + 2 := ⟨tries - 2, by omega⟩
  simp [withHttpRetry, h, hg]

/-- A retryable-status error response at each of the attempts `k .. k+3`. -/
lemma withHttpRetry_exhaust {net : Nat → NetEvent} {r : HttpResponse}
    (k : Nat) (h4 : 400 ≤ r.status) (h6 : r.status < 600)
    (hg : _http_status_giveup r.status = false)
    (hall : ∀ i, i < MAX_TRIES → net (k + i) = .response r) :
    withHttpRetry net MAX_TRIES k = (.error (.httpError r), k + MAX_TRIES) := by
  have step : ∀ i, i < MAX_TRIES →
      withTimeoutRetry net MAX_TRIES (k + i) =
        (.error (.httpError r), k + i + 1) := by
    intro i hi
    exact withTimeoutRetry_http (by simp [MAX_TRIES])
      (rawCall_err (hall i hi) h4 h6)
  have e0 := step 0 (by simp [MAX_TRIES])
  have e1 := step 1 (by simp [MAX_TRIES])
  have e2 := step 2 (by simp [MAX_TRIES])
  have e3 := step 3 (by simp [MAX_TRIES])
  simp only [Nat.add_zero] at e0
  show withHttpRetry net MAX_TRIES k = (.error (.httpError r), k + MAX_TRIES)
  rw [show MAX_TRIES = 4 from rfl]
  rw [withHttpRetry_retry e0 hg (by omega)]
  rw [show (4 : Nat) - 1 = 3 from rfl]
  rw [withHttpRetry_retry e1 hg (by omega)]
  rw [show (3 : Nat) - 1 = 2 from rfl, show k + 1 + 1 = k + 2 from by omega]
  rw [withHttpRetry_retry e2 hg (by omega)]
  rw [show (2 : Nat) - 1 = 1 from rfl, show k + 2 + 1 = k + 3 from by omega]
  rw [withHttpRetry_last (by omega) e3]

/-- C5: an HTTP error response is retried (with backoff, up to a total of
`MAX_TRIES = 4` attempts) exactly when its status is 429 or in 500–599;
any other HTTP error status propagates after the first attempt. -/
theorem http_error_retry_iff_429_or_5xx (net : Nat → NetEvent) (k : Nat)
    (r : HttpResponse) (hk : net k = .response r)
    (h4 : 400 ≤ r.status) (h6 : r.status < 600) :
    (¬ (r.status = 429 ∨ (500 ≤ r.status ∧ r.status < 600)) →
      _call_segment_post net k = (.error (.httpError r), k + 1)) ∧
    ((r.status = 429 ∨ (500 ≤ r.status ∧ r.status < 600)) →
      _call_segment_post net k = withHttpRetry net (MAX_TRIES - 1) (k + 1)) ∧
    ((r.status = 429 ∨ (500 ≤ r.status ∧ r.status < 600)) →
      (∀ i, i < MAX_TRIES → net (k + i) = .response r) →
      _call_segment_post net k = (.error (.httpError r), k + MAX_TRIES)) := by
  have hraw : rawCall net k = (.error (.httpError r), k + 1) :=
    rawCall_err hk h4 h6
  have htr : withTimeoutRetry net MAX_TRIES k =
      (.error (.httpError r), k + 1) :=
    withTimeoutRetry_http (by simp [MAX_TRIES]) hraw
  refine ⟨?_, ?_, ?_⟩
  · intro hnr
    have hg : _http_status_giveup r.status = true := by
      rcases Bool.eq_false_or_eq_true (_http_status_giveup r.status) with ht | hf
      · exact ht
      · exact absurd ((giveup_false_iff r.status).mp hf) hnr
    exact withHttpRetry_giveup MAX_TRIES htr hg
  · intro hr
    have hg : _http_status_giveup r.status = false :=
      (giveup_false_iff r.status).mpr hr
    exact withHttpRetry_retry htr hg (by simp [MAX_TRIES])
  · intro hr hall
    have hg : _http_status_giveup r.status = false :=
      (giveup_false_iff r.status).mpr hr
    exact withHttpRetry_exhaust k h4 h6 hg hall

/-- A network that always answers 404 with body text NF. -/
def netAll404 : Nat → NetEvent :=
  fun _ => .response ⟨404, none, "NF"⟩

theorem http_error_retry_iff_429_or_5xx_witness :
    _call_segment_post netAll404 0 =
      (.error (.httpError ⟨404, none, "NF"⟩), 1) :=
  (http_error_retry_iff_429_or_5xx netAll404 0 ⟨404, none, "NF"⟩ rfl
    (by decide) (by decide)).1 (by decide)

/-! ### Lemmas about flattening and required keys -/

/-- Both required identifying keys are present on a learner dict. -/
def keysOK (l : Learner) : Prop :=
  (dictGet l "id").isSome ∧ (dictGet l "original_username").isSome

instance (l : Learner) : Decidable (keysOK l) := by
  unfold keysOK; infer_instance

lemma exists_getElem?_of_lt (learners : List Learner) (i : Nat)
    (h : i < learners.length) :
    ∃ l, learners[i]? = some l ∧ l ∈ learners := by
  exact ⟨learners[i], List.getElem?_eq_getElem h, List.getElem_mem h⟩

lemma keyVals_err {l : Learner} {e : DelErr} :
    ∀ {keys : List String}, keyVals l keys = .error e →
      ∃ k, k ∈ keys ∧ e = .keyError k := by
  intro keys
  induction keys with
  | nil => intro h; simp [keyVals] at h
  | cons k ks ih =>
    intro h
    rw [keyVals] at h
    rcases hd : dictGet l k with _ | v
    · simp only [hd] at h
      injection h with h1
      exact ⟨k, List.mem_cons_self k ks, h1.symm⟩
    · simp only [hd] at h
      rcases hrest : keyVals l ks with e' | vs
      · simp only [hrest, Except.map] at h
        injection h with h1
        subst h1
        obtain ⟨k', hk', he⟩ := ih hrest
        exact ⟨k', List.mem_cons_of_mem k hk', he⟩
      · simp [hrest, Except.map] at h

lemma keyVals_ok_isSome {l : Learner} :
    ∀ {keys : List String} {vs : List String}, keyVals l keys = .ok vs →
      ∀ k ∈ keys, (dictGet l k).isSome := by
  intro keys
  induction keys with
  | nil => intro vs _ k hk; simp at hk
  | cons k0 ks ih =>
    intro vs h k hk
    rw [keyVals] at h
    rcases hd : dictGet l k0 with _ | v
    · simp only [hd] at h
      exact Except.noConfusion h
    · simp only [hd] at h
      rcases hrest : keyVals l ks with e' | vs'
      · simp [hrest, Except.map] at h
      · rcases List.mem_cons.mp hk with rfl | hk'
        · simp [hd]
        · exact ih hrest k hk'

lemma keyVals_pair (l : Learner) (v1 v2 : PyVal)
    (h1 : dictGet l "id" = some v1)
    (h2 : dictGet l "original_username" = some v2) :
    keyVals l REQUIRED_IDENTIFYING_KEYS = .ok [text_type v1, text_type v2] := by
  simp [keyVals, REQUIRED_IDENTIFYING_KEYS, h1, h2, Except.map]

lemma learnerVals_eq (l : Learner) (v1 v2 : PyVal)
    (h1 : dictGet l "id" = some v1)
    (h2 : dictGet l "original_username" = some v2) :
    learnerVals l = .ok ([text_type v1, text_type v2] ++
      (match dictGet l "ecommerce_segment_id" with
       | some v3 => [text_type v3]
       | none => [])) := by
  rw [learnerVals, keyVals_pair l v1 v2 h1 h2]
  rcases h3 : dictGet l "ecommerce_segment_id" with _ | v3 <;>
    simp [Except.map, optKeyVals, OPTIONAL_IDENTIFYING_KEYS, h3]

lemma learnerVals_ok_of_keysOK {l : Learner} (h : keysOK l) :
    ∃ vs, learnerVals l = .ok vs := by
  obtain ⟨h1, h2⟩ := h
  obtain ⟨v1, hv1⟩ := Option.isSome_iff_exists.mp h1
  obtain ⟨v2, hv2⟩ := Option.isSome_iff_exists.mp h2
  exact ⟨_, learnerVals_eq l v1 v2 hv1 hv2⟩

lemma learnerVals_err_of_not_keysOK {l : Learner} (h : ¬ keysOK l) :
    ∃ k, learnerVals l = .error (.keyError k) ∧
      (k = "id" ∨ k = "original_username") := by
  rcases hlv : learnerVals l with e | vs
  · rw [learnerVals] at hlv
    rcases hkv : keyVals l REQUIRED_IDENTIFYING_KEYS with e' | vs'
    · rw [hkv] at hlv
      simp only [Except.map] at hlv
      obtain ⟨k, hk, he⟩ := keyVals_err hkv
      injection hlv with h1
      subst h1
      subst he
      refine ⟨k, rfl, ?_⟩
      simpa [REQUIRED_IDENTIFYING_KEYS] using hk
    · rw [hkv] at hlv
      simp [Except.map] at hlv
  · exfalso
    apply h
    rw [learnerVals] at hlv
    rcases hkv : keyVals l REQUIRED_IDENTIFYING_KEYS with e' | vs'
    · simp [hkv, Except.map] at hlv
    · have hall := keyVals_ok_isSome hkv
      exact ⟨hall "id" (by simp [REQUIRED_IDENTIFYING_KEYS]),
        hall "original_username" (by simp [REQUIRED_IDENTIFYING_KEYS])⟩

lemma flattenCount_ok :
    ∀ (count : Nat) (learners : List Learner) (idx : Nat),
      (∀ l ∈ learners, keysOK l) → idx + count ≤ learners.length →
      ∃ vs, flattenCount learners idx count = .ok vs := by
  intro count
  induction count with
  | zero => intro learners idx _ _; exact ⟨[], rfl⟩
  | succ m ih =>
    intro learners idx hk hs
    obtain ⟨l, hl, hmem⟩ := exists_getElem?_of_lt learners idx (by omega)
    obtain ⟨vs, hvs⟩ := learnerVals_ok_of_keysOK (hk l hmem)
    obtain ⟨rest, hrest⟩ := ih learners (idx + 1) hk (by omega)
    exact ⟨vs ++ rest, by simp [flattenCount, indexGet, hl, hvs, hrest]⟩

lemma flattenWindow_ok (learners : List Learner) (idx stop : Nat)
    (hk : ∀ l ∈ learners, keysOK l) (hs : stop ≤ learners.length) :
    ∃ vs, flattenWindow learners idx stop = .ok vs := by
  rw [flattenWindow]
  by_cases hle : idx ≤ stop
  · exact flattenCount_ok (stop - idx) learners idx hk (by omega)
  · rw [show stop - idx = 0 from by omega]
    exact ⟨[], rfl⟩

lemma flattenCount_err_of_missing :
    ∀ (count : Nat) (learners : List Learner) (idx : Nat),
      (∃ i l, idx ≤ i ∧ i < idx + count ∧ learners[i]? = some l ∧
        ¬ keysOK l) →
      ∃ k, flattenCount learners idx count = .error (.keyError k) ∧
        (k = "id" ∨ k = "original_username") := by
  intro count
  induction count with
  | zero =>
    intro learners idx hex
    obtain ⟨i, l, h1, h2, _, _⟩ := hex
    omega
  | succ m ih =>
    intro learners idx hex
    obtain ⟨i, l, hi1, hi2, hil, hbad⟩ := hex
    have hilen : i < learners.length := by
      by_contra hc
      rw [List.getElem?_eq_none (by omega)] at hil
      exact Option.noConfusion hil
    obtain ⟨l0, hl0, _⟩ :=
      exists_getElem?_of_lt learners idx (by omega)
    rcases hlv : learnerVals l0 with e | vs
    · rw [learnerVals] at hlv
      rcases hkv : keyVals l0 REQUIRED_IDENTIFYING_KEYS with e' | vs'
      · simp only [hkv, Except.map] at hlv
        obtain ⟨k, hk, he⟩ := keyVals_err hkv
        injection hlv with hh
        subst hh; subst he
        refine ⟨k, ?_, by simpa [REQUIRED_IDENTIFYING_KEYS] using hk⟩
        simp [flattenCount, indexGet, hl0, learnerVals, hkv, Except.map]
      · simp [hkv, Except.map] at hlv
    · have hio : i ≠ idx := by
        intro hc
        subst hc
        rw [hil] at hl0
        injection hl0 with hh
        subst hh
        obtain ⟨k, hek, _⟩ := learnerVals_err_of_not_keysOK hbad
        rw [hlv] at hek
        exact Except.noConfusion hek
      obtain ⟨k, hrest, hkr⟩ := ih learners (idx + 1)
        ⟨i, l, by omega, by omega, hil, hbad⟩
      exact ⟨k, by simp [flattenCount, indexGet, hl0, hlv, hrest], hkr⟩

lemma flattenWindow_err_of_missing (learners : List Learner)
    (idx stop : Nat)
    (hex : ∃ i l, idx ≤ i ∧ i < stop ∧ learners[i]? = some l ∧
      ¬ keysOK l) :
    ∃ k, flattenWindow learners idx stop = .error (.keyError k) ∧
      (k = "id" ∨ k = "original_username") := by
  obtain ⟨i, l, h1, h2, h3, h4⟩ := hex
  rw [flattenWindow]
  exact flattenCount_err_of_missing (stop - idx) learners idx
    ⟨i, l, h1, by omega, h3, h4⟩

lemma logLineAccess_ok {learners : List Learner} {s e : Nat}
    {ls le : Learner}
    (hls : learners[s]? = some ls) (hle : learners[e]? = some le)
    (hks : keysOK ls) (hke : keysOK le) :
    logLineAccess learners s e = .ok () := by
  obtain ⟨v1, hv1⟩ := Option.isSome_iff_exists.mp hks.1
  obtain ⟨v2, hv2⟩ := Option.isSome_iff_exists.mp hks.2
  obtain ⟨v3, hv3⟩ := Option.isSome_iff_exists.mp hke.1
  obtain ⟨v4, hv4⟩ := Option.isSome_iff_exists.mp hke.2
  simp [logLineAccess, indexGet, hls, hle, dictGetE, hv1, hv2, hv3, hv4]

lemma logLineAccess_cases (learners : List Learner) (s e : Nat)
    (hs : s < learners.length) (he : e < learners.length) :
    logLineAccess learners s e = .ok () ∨
      ∃ k, logLineAccess learners s e = .error (.keyError k) ∧
        (k = "id" ∨ k = "original_username") := by
  obtain ⟨ls, hls, _⟩ := exists_getElem?_of_lt learners s hs
  obtain ⟨le, hle, _⟩ := exists_getElem?_of_lt learners e he
  rcases h1 : dictGet ls "id" with _ | v1
  · exact Or.inr ⟨"id", by simp [logLineAccess, indexGet, hls, dictGetE, h1],
      Or.inl rfl⟩
  rcases h2 : dictGet ls "original_username" with _ | v2
  · exact Or.inr ⟨"original_username",
      by simp [logLineAccess, indexGet, hls, dictGetE, h1, h2], Or.inr rfl⟩
  rcases h3 : dictGet le "id" with _ | v3
  · exact Or.inr ⟨"id",
      by simp [logLineAccess, indexGet, hls, hle, dictGetE, h1, h2, h3],
      Or.inl rfl⟩
  rcases h4 : dictGet le "original_username" with _ | v4
  · exact Or.inr ⟨"original_username",
      by simp [logLineAccess, indexGet, hls, hle, dictGetE, h1, h2, h3, h4],
      Or.inr rfl⟩
  exact Or.inl (by
    simp [logLineAccess, indexGet, hls, hle, dictGetE, h1, h2, h3, h4])

/-! ### Step lemmas for the delete_learners window loop -/

lemma deleteLoop_exit {learners : List Learner} {chunk_size : Nat}
    {net : Nat → NetEvent} {fuel curr k : Nat}
    (h : ¬ curr < learners.length) :
    deleteLoop learners chunk_size net (fuel + 1) curr k =
      ⟨.completed, [], []⟩ := by
  rw [deleteLoop, if_neg h]

lemma deleteLoop_raised_log {learners : List Learner} {chunk_size : Nat}
    {net : Nat → NetEvent} {fuel curr k : Nat} {e : DelErr}
    (h : curr < learners.length)
    (hlog : logLineAccess learners curr
      (min (curr + chunk_size - 1) (learners.length - 1)) = .error e) :
    deleteLoop learners chunk_size net (fuel + 1) curr k =
      ⟨.raised e, [], []⟩ := by
  rw [deleteLoop, if_pos h]
  simp only [hlog]

lemma deleteLoop_raised_flatten {learners : List Learner} {chunk_size : Nat}
    {net : Nat → NetEvent} {fuel curr k : Nat} {e : DelErr}
    (h : curr < learners.length)
    (hlog : logLineAccess learners curr
      (min (curr + chunk_size - 1) (learners.length - 1)) = .ok ())
    (hflat : flattenWindow learners curr
      (min (curr + chunk_size - 1) (learners.length - 1) + 1) = .error e) :
    deleteLoop learners chunk_size net (fuel + 1) curr k =
      ⟨.raised e, [], []⟩ := by
  rw [deleteLoop, if_pos h]
  simp only [hlog, hflat]

lemma deleteLoop_config {learners : List Learner} {chunk_size : Nat}
    {net : Nat → NetEvent} {fuel curr k : Nat} {vals : List String}
    (h : curr < learners.length)
    (hlog : logLineAccess learners curr
      (min (curr + chunk_size - 1) (learners.length - 1)) = .ok ())
    (hflat : flattenWindow learners curr
      (min (curr + chunk_size - 1) (learners.length - 1) + 1) = .ok vals)
    (hlen : MAXIMUM_USERS_IN_DELETE_REQUEST ≤ vals.length) :
    deleteLoop learners chunk_size net (fuel + 1) curr k =
      ⟨.configError vals.length, [], []⟩ := by
  rw [deleteLoop, if_pos h]
  simp only [hlog, hflat]
  rw [if_pos hlen]

lemma deleteLoop_timeoutFail {learners : List Learner} {chunk_size : Nat}
    {net : Nat → NetEvent} {fuel curr k kk : Nat} {vals : List String}
    (h : curr < learners.length)
    (hlog : logLineAccess learners curr
      (min (curr + chunk_size - 1) (learners.length - 1)) = .ok ())
    (hflat : flattenWindow learners curr
      (min (curr + chunk_size - 1) (learners.length - 1) + 1) = .ok vals)
    (hlen : vals.length < MAXIMUM_USERS_IN_DELETE_REQUEST)
    (hpost : _call_segment_post net k = (.error .timeout, kk)) :
    deleteLoop learners chunk_size net (fuel + 1) curr k =
      ⟨.raised .timeoutExc,
        [⟨curr, min (curr + chunk_size - 1) (learners.length - 1), vals⟩],
        []⟩ := by
  rw [deleteLoop, if_pos h]
  simp only [hlog, hflat, hpost]
  rw [if_neg (by omega)]

lemma deleteLoop_httpFail {learners : List Learner} {chunk_size : Nat}
    {net : Nat → NetEvent} {fuel curr k kk : Nat} {vals : List String}
    {r : HttpResponse}
    (h : curr < learners.length)
    (hlog : logLineAccess learners curr
      (min (curr + chunk_size - 1) (learners.length - 1)) = .ok ())
    (hflat : flattenWindow learners curr
      (min (curr + chunk_size - 1) (learners.length - 1) + 1) = .ok vals)
    (hlen : vals.length < MAXIMUM_USERS_IN_DELETE_REQUEST)
    (hpost : _call_segment_post net k = (.error (.httpError r), kk)) :
    deleteLoop learners chunk_size net (fuel + 1) curr k =
      ⟨.raised (.wrapped curr
          (min (curr + chunk_size - 1) (learners.length - 1)) .empty),
        [⟨curr, min (curr + chunk_size - 1) (learners.length - 1), vals⟩],
        []⟩ := by
  rw [deleteLoop, if_pos h]
  simp only [hlog, hflat, hpost]
  rw [if_neg (by omega)]

lemma deleteLoop_decodeFail {learners : List Learner} {chunk_size : Nat}
    {net : Nat → NetEvent} {fuel curr k kk : Nat} {vals : List String}
    {resp : HttpResponse}
    (h : curr < learners.length)
    (hlog : logLineAccess learners curr
      (min (curr + chunk_size - 1) (learners.length - 1)) = .ok ())
    (hflat : flattenWindow learners curr
      (min (curr + chunk_size - 1) (learners.length - 1) + 1) = .ok vals)
    (hlen : vals.length < MAXIMUM_USERS_IN_DELETE_REQUEST)
    (hpost : _call_segment_post net k = (.ok resp, kk))
    (hjson : resp.json = none) :
    deleteLoop learners chunk_size net (fuel + 1) curr k =
      ⟨.raised (.wrapped curr
          (min (curr + chunk_size - 1) (learners.length - 1))
          (.text resp.text)),
        [⟨curr, min (curr + chunk_size - 1) (learners.length - 1), vals⟩],
        []⟩ := by
  rw [deleteLoop, if_pos h]
  simp only [hlog, hflat, hpost, hjson]
  rw [if_neg (by omega)]

lemma deleteLoop_lookupFail {learners : List Learner} {chunk_size : Nat}
    {net : Nat → NetEvent} {fuel curr k kk : Nat} {vals : List String}
    {resp : HttpResponse} {j : Json} {le : LookupErr}
    (h : curr < learners.length)
    (hlog : logLineAccess learners curr
      (min (curr + chunk_size - 1) (learners.length - 1)) = .ok ())
    (hflat : flattenWindow learners curr
      (min (curr + chunk_size - 1) (learners.length - 1) + 1) = .ok vals)
    (hlen : vals.length < MAXIMUM_USERS_IN_DELETE_REQUEST)
    (hpost : _call_segment_post net k = (.ok resp, kk))
    (hjson : resp.json = some j)
    (hrid : jsonLookup j "regulate_id" = .error le) :
    deleteLoop learners chunk_size net (fuel + 1) curr k =
      ⟨.raised (.wrapped curr
          (min (curr + chunk_size - 1) (learners.length - 1)) (.json j)),
        [⟨curr, min (curr + chunk_size - 1) (learners.length - 1), vals⟩],
        []⟩ := by
  rw [deleteLoop, if_pos h]
  simp only [hlog, hflat, hpost, hjson, hrid]
  rw [if_neg (by omega)]

lemma deleteLoop_success_step {learners : List Learner} {chunk_size : Nat}
    {net : Nat → NetEvent} (fuel : Nat) {curr k kk : Nat} {vals : List String}
    {resp : HttpResponse} {j rid : Json}
    (h : curr < learners.length)
    (hlog : logLineAccess learners curr
      (min (curr + chunk_size - 1) (learners.length - 1)) = .ok ())
    (hflat : flattenWindow learners curr
      (min (curr + chunk_size - 1) (learners.length - 1) + 1) = .ok vals)
    (hlen : vals.length < MAXIMUM_USERS_IN_DELETE_REQUEST)
    (hpost : _call_segment_post net k = (.ok resp, kk))
    (hjson : resp.json = some j)
    (hrid : jsonLookup j "regulate_id" = .ok rid) :
    deleteLoop learners chunk_size net (fuel + 1) curr k =
      ⟨(deleteLoop learners chunk_size net fuel (curr + chunk_size) kk).outcome,
        ⟨curr, min (curr + chunk_size - 1) (learners.length - 1), vals⟩ ::
          (deleteLoop learners chunk_size net fuel (curr + chunk_size) kk).posts,
        rid ::
          (deleteLoop learners chunk_size net fuel (curr + chunk_size) kk).queued⟩ := by
  rw [deleteLoop, if_pos h]
  simp only [hlog, hflat, hpost, hjson, hrid]
  rw [if_neg (by omega)]

/-! ### The expected partition into windows (C1) -/

/-- `w` expected window index pairs of `chunk_size` learners starting at
`curr`, each end index clipped to the last learner index of `n` learners. -/
def windowPairsAux (n chunk_size : Nat) : Nat → Nat → List (Nat × Nat)
  | 0, _ => []
  | w + 1, curr =>
    (curr, min (curr + chunk_size - 1) (n - 1)) ::
      windowPairsAux n chunk_size w (curr + chunk_size)

/-- The window index pairs `delete_learners` should submit for `n`
learners starting at index `curr`: `⌈(n - curr) / chunk_size⌉` consecutive
contiguous windows. -/
def windowPairs (n chunk_size curr : Nat) : List (Nat × Nat) :=
  windowPairsAux n chunk_size ((n - curr + chunk_size - 1) / chunk_size) curr

/-- The flattened identifier-value count of the window `s..e` (zero when
flattening raises). -/
def windowCount (learners : List Learner) (s e : Nat) : Nat :=
  match flattenWindow learners s (e + 1) with
  | .ok vs => vs.length
  | .error _ => 0

lemma windowPairsAux_length (n chunk_size : Nat) :
    ∀ w curr, (windowPairsAux n chunk_size w curr).length = w := by
  intro w
  induction w with
  | zero => intro curr; rfl
  | succ m ih => intro curr; simp [windowPairsAux, ih]

lemma ceil_div_pos_step (m c : Nat) (hm : 1 ≤ m) (hc : 1 ≤ c) :
    (m + c - 1) / c = ((m - c) + c - 1) / c + 1 := by
  rcases le_or_lt m c with h | h
  · have h1 : m - c = 0 := by omega
    have h2 : (m + c - 1) / c = 1 :=
      Nat.div_eq_of_lt_le (by omega) (by omega)
    have h3 : (c - 1) / c = 0 := Nat.div_eq_of_lt (by omega)
    have h0 : 0 + c - 1 = c - 1 := by omega
    rw [h1, h2, h0, h3]
  · have heq : m + c - 1 = ((m - c) + c - 1) + c := by omega
    rw [heq, Nat.add_div_right _ (by omega)]

lemma windowPairs_nil {n chunk_size curr : Nat} (hc : 1 ≤ chunk_size)
    (h : n ≤ curr) : windowPairs n chunk_size curr = [] := by
  have h1 : n - curr = 0 := by omega
  have h2 : (n - curr + chunk_size - 1) / chunk_size = 0 := by
    rw [h1]
    exact Nat.div_eq_of_lt (by omega)
  rw [windowPairs, h2]
  rfl

lemma windowPairs_cons (n : Nat) {chunk_size curr : Nat} (hc : 1 ≤ chunk_size)
    (h : curr < n) :
    windowPairs n chunk_size curr =
      (curr, min (curr + chunk_size - 1) (n - 1)) ::
        windowPairs n chunk_size (curr + chunk_size) := by
  have hstep := ceil_div_pos_step (n - curr) chunk_size (by omega) hc
  have harg : n - curr - chunk_size = n - (curr + chunk_size) := by omega
  rw [windowPairs, hstep, harg, windowPairsAux]
  rfl

/-- A response whose POST attempt succeeds and whose body parses to a JSON
object holding a `regulate_id` field. -/
def goodResponse (r : HttpResponse) : Prop :=
  r.status < 400 ∧ ∃ fields rid, r.json = some (.obj fields) ∧
    lookupField fields "regulate_id" = some rid

/-- Every network attempt answers with a good response (no error occurs on
any call). -/
def goodNet (net : Nat → NetEvent) : Prop :=
  ∀ i, ∃ r, net i = .response r ∧ goodResponse r

lemma call_of_goodNet {net : Nat → NetEvent} (hg : goodNet net) (k : Nat) :
    ∃ resp fields rid, _call_segment_post net k = (.ok resp, k + 1) ∧
      resp.json = some (.obj fields) ∧
      lookupField fields "regulate_id" = some rid := by
  obtain ⟨r, hk, hs, fields, rid, hj, hl⟩ := hg k
  exact ⟨r, fields, rid,
    withHttpRetry_ok _ (withTimeoutRetry_ok (by simp [MAX_TRIES])
      (rawCall_ok hk hs)), hj, hl⟩

lemma deleteLoop_happy (learners : List Learner) (chunk_size : Nat)
    (hchunk : 1 ≤ chunk_size) (hkeys : ∀ l ∈ learners, keysOK l)
    (net : Nat → NetEvent) (hg : goodNet net) :
    ∀ fuel curr k, learners.length - curr < fuel →
      (∀ p ∈ windowPairs learners.length chunk_size curr,
        windowCount learners p.1 p.2 < MAXIMUM_USERS_IN_DELETE_REQUEST) →
      (deleteLoop learners chunk_size net fuel curr k).outcome = .completed ∧
      (deleteLoop learners chunk_size net fuel curr k).posts.map
        (fun p => (p.startIdx, p.endIdx)) =
          windowPairs learners.length chunk_size curr := by
  intro fuel
  induction fuel with
  | zero => intro curr k hf _; omega
  | succ m ih =>
    intro curr k hf hceil
    by_cases hcur : curr < learners.length
    · have hn1 : 1 ≤ learners.length := by omega
      set endI := min (curr + chunk_size - 1) (learners.length - 1) with hendI
      have hend_lt : endI < learners.length := by omega
      obtain ⟨ls, hls, hmems⟩ := exists_getElem?_of_lt learners curr hcur
      obtain ⟨le, hle, hmeme⟩ := exists_getElem?_of_lt learners endI hend_lt
      have hlog := logLineAccess_ok hls hle (hkeys ls hmems) (hkeys le hmeme)
      obtain ⟨vs, hvs⟩ := flattenWindow_ok learners curr (endI + 1)
        hkeys (by omega)
      have hcons := windowPairs_cons learners.length hchunk hcur
      have hmem0 : (curr, endI) ∈ windowPairs learners.length chunk_size curr := by
        rw [hcons]; exact List.mem_cons_self _ _
      have hcnt := hceil (curr, endI) hmem0
      rw [windowCount, hvs] at hcnt
      obtain ⟨resp, fields, rid, hpost, hjson, hlook⟩ := call_of_goodNet hg k
      have hrid : jsonLookup (.obj fields) "regulate_id" = .ok rid := by
        simp [jsonLookup, hlook]
      have hstep := deleteLoop_success_step m hcur hlog hvs hcnt
        hpost hjson hrid
      have hrec := ih (curr + chunk_size) (k + 1) (by omega) (by
        intro p hp
        exact hceil p (by rw [hcons]; exact List.mem_cons_of_mem _ hp))
      rw [hstep]
      refine ⟨hrec.1, ?_⟩
      simp only [List.map_cons, hrec.2]
      rw [hcons]
    · rw [deleteLoop_exit hcur, windowPairs_nil hchunk (by omega)]
      exact ⟨rfl, rfl⟩

/-- C1: for every learner list, every chunk_size > 0 and start index 0,
when every window stays below the identifier ceiling and no call fails,
`delete_learners` submits exactly `⌈N / chunk_size⌉` requests, one per
consecutive contiguous window of `chunk_size` records (the last window may
be shorter), in input order, and completes normally. -/
theorem delete_learners_partitions_and_counts (learners : List Learner)
    (chunk_size : Nat) (net : Nat → NetEvent)
    (hchunk : 1 ≤ chunk_size) (hkeys : ∀ l ∈ learners, keysOK l)
    (hg : goodNet net)
    (hceil : ∀ p ∈ windowPairs learners.length chunk_size 0,
      windowCount learners p.1 p.2 < MAXIMUM_USERS_IN_DELETE_REQUEST) :
    (delete_learners learners chunk_size 0 net).outcome = .completed ∧
    (delete_learners learners chunk_size 0 net).posts.map
      (fun p => (p.startIdx, p.endIdx)) =
        windowPairs learners.length chunk_size 0 ∧
    (delete_learners learners chunk_size 0 net).posts.length =
      (learners.length + chunk_size - 1) / chunk_size := by
  have h := deleteLoop_happy learners chunk_size hchunk hkeys net hg
    (learners.length + 1) 0 0 (by omega) hceil
  rw [delete_learners]
  refine ⟨h.1, h.2, ?_⟩
  have hlen := congrArg List.length h.2
  rw [List.length_map] at hlen
  rw [hlen, windowPairs, windowPairsAux_length, Nat.sub_zero]

/-- A learner dict with both required keys. -/
def sampleLearner (i : Nat) : Learner :=
  [("id", .int i), ("original_username", .str "user")]

/-- Twelve learners with the required keys. -/
def sampleLearners12 : List Learner :=
  (List.range 12).map (fun i => sampleLearner i)

/-- A network that always answers 200 with a `regulate_id` body. -/
def goodNet0 : Nat → NetEvent :=
  fun _ => .response ⟨200, some (.obj [("regulate_id", .str "rid")]), "body"⟩

lemma goodNet0_good : goodNet goodNet0 :=
  fun _ => ⟨⟨200, some (.obj [("regulate_id", .str "rid")]), "body"⟩, rfl,
    by decide, [("regulate_id", .str "rid")], .str "rid", rfl, rfl⟩

theorem delete_learners_partitions_and_counts_witness :
    (delete_learners sampleLearners12 5 0 goodNet0).outcome = .completed ∧
    (delete_learners sampleLearners12 5 0 goodNet0).posts.map
      (fun p => (p.startIdx, p.endIdx)) = [(0, 4), (5, 9), (10, 11)] ∧
    (delete_learners sampleLearners12 5 0 goodNet0).posts.length = 3 := by
  have h := delete_learners_partitions_and_counts sampleLearners12 5 goodNet0
    (by decide) (by decide) goodNet0_good (by decide)
  refine ⟨h.1, ?_, h.2.2⟩
  rw [h.2.1]
  decide

/-! ### The identifier ceiling (C2, C3) -/

lemma deleteLoop_posts_below_ceiling (learners : List Learner)
    (chunk_size : Nat) (net : Nat → NetEvent) :
    ∀ fuel curr k p,
      p ∈ (deleteLoop learners chunk_size net fuel curr k).posts →
      p.vals.length < MAXIMUM_USERS_IN_DELETE_REQUEST := by
  intro fuel
  induction fuel with
  | zero => intro curr k p hp; simp [deleteLoop] at hp
  | succ m ih =>
    intro curr k p hp
    by_cases hcur : curr < learners.length
    · rcases hlog : logLineAccess learners curr
          (min (curr + chunk_size - 1) (learners.length - 1)) with e | u
      · rw [deleteLoop_raised_log hcur hlog] at hp
        simp at hp
      · cases u
        rcases hflat : flattenWindow learners curr
            (min (curr + chunk_size - 1) (learners.length - 1) + 1)
          with e | vals
        · rw [deleteLoop_raised_flatten hcur hlog hflat] at hp
          simp at hp
        · by_cases hbig : MAXIMUM_USERS_IN_DELETE_REQUEST ≤ vals.length
          · rw [deleteLoop_config hcur hlog hflat hbig] at hp
            simp at hp
          · have hlt : vals.length < MAXIMUM_USERS_IN_DELETE_REQUEST := by
              omega
            rcases hpost : _call_segment_post net k with ⟨res, kk⟩
            rcases res with exc | resp
            · rcases exc with r | _
              · rw [deleteLoop_httpFail hcur hlog hflat hlt hpost] at hp
                simp at hp
                subst hp
                exact hlt
              · rw [deleteLoop_timeoutFail hcur hlog hflat hlt hpost] at hp
                simp at hp
                subst hp
                exact hlt
            · rcases hjson : resp.json with _ | j
              · rw [deleteLoop_decodeFail hcur hlog hflat hlt hpost hjson] at hp
                simp at hp
                subst hp
                exact hlt
              · rcases hrid : jsonLookup j "regulate_id" with le | rid
                · rw [deleteLoop_lookupFail hcur hlog hflat hlt hpost hjson
                      hrid] at hp
                  simp at hp
                  subst hp
                  exact hlt
                · rw [deleteLoop_success_step m hcur hlog hflat hlt hpost hjson
                      hrid] at hp
                  simp only [List.mem_cons] at hp
                  rcases hp with rfl | hp
                  · exact hlt
                  · exact ih _ _ p hp
    · rw [deleteLoop_exit hcur] at hp
      simp at hp

/-- 2500 learners, each contributing two identifier values. -/
def bigLearners : List Learner := List.replicate 2500 (sampleLearner 0)

lemma flattenCount_replicate {l0 : Learner} {vs0 : List String}
    (hl : learnerVals l0 = .ok vs0) :
    ∀ (count idx n : Nat), idx + count ≤ n →
      ∃ vs, flattenCount (List.replicate n l0) idx count = .ok vs ∧
        vs.length = count * vs0.length := by
  intro count
  induction count with
  | zero => intro idx n _; exact ⟨[], rfl, by simp⟩
  | succ m ih =>
    intro idx n h
    obtain ⟨vs, hvs, hlen⟩ := ih (idx + 1) n (by omega)
    have hidx : (List.replicate n l0)[idx]? = some l0 := by
      rw [List.getElem?_eq_getElem (by simpa using (by omega : idx < n))]
      simp
    refine ⟨vs0 ++ vs, by simp [flattenCount, indexGet, hidx, hl, hvs], ?_⟩
    simp [hlen, Nat.succ_mul, Nat.add_comm]

/-- C2: a window whose flattened identifier-value count is 5000 or more is
never submitted to the bulk-delete endpoint, and the operation terminates
at such a window.  First conjunct: in every full run, every POST call made
carries strictly fewer than 5000 values.  Second conjunct: from *any* loop
state — any window start `curr`, any attempt cursor `k`, any remaining
fuel — whose current window flattens to 5000 or more values, the loop
returns `⟨configError, [], []⟩` at once: the endpoint is not called for
that window, no further window is processed, and the loop terminates
there.  (`delete_learners` is `deleteLoop` at the initial state, and by
`deleteLoop_success_step` every mid-run window is again a `deleteLoop`
state, so the second conjunct applies to every window the run reaches,
ruling out skip-and-continue behaviour.) -/
theorem posted_windows_below_ceiling (learners : List Learner)
    (chunk_size beginning_idx : Nat) (net : Nat → NetEvent) :
    (∀ p ∈ (delete_learners learners chunk_size beginning_idx net).posts,
      p.vals.length < MAXIMUM_USERS_IN_DELETE_REQUEST) ∧
    (∀ fuel curr k vals, curr < learners.length →
      logLineAccess learners curr
        (min (curr + chunk_size - 1) (learners.length - 1)) = .ok () →
      flattenWindow learners curr
        (min (curr + chunk_size - 1) (learners.length - 1) + 1) = .ok vals →
      MAXIMUM_USERS_IN_DELETE_REQUEST ≤ vals.length →
      deleteLoop learners chunk_size net (fuel + 1) curr k =
        ⟨.configError vals.length, [], []⟩) := by
  refine ⟨?_, ?_⟩
  · intro p hp
    exact deleteLoop_posts_below_ceiling learners chunk_size net
      (learners.length + 1) beginning_idx 0 p hp
  · intro fuel curr k vals h1 h2 h3 h4
    exact deleteLoop_config h1 h2 h3 h4

theorem posted_windows_below_ceiling_witness :
    ((⟨0, 0, ["0", "user"]⟩ : PostCall) ∈
      (delete_learners [sampleLearner 0] 1 0 goodNet0).posts ∧
    (⟨0, 0, ["0", "user"]⟩ : PostCall).vals.length <
      MAXIMUM_USERS_IN_DELETE_REQUEST) ∧
    (∃ vals : List String, vals.length = 5000 ∧
      deleteLoop bigLearners 2500 goodNet0 (2500 + 1) 0 0 =
        ⟨.configError 5000, [], []⟩) := by
  constructor
  · exact ⟨by decide,
      (posted_windows_below_ceiling [sampleLearner 0] 1 0 goodNet0).1
        ⟨0, 0, ["0", "user"]⟩ (by decide)⟩
  · have hl : learnerVals (sampleLearner 0) = .ok ["0", "user"] := rfl
    obtain ⟨vs, hvs, hlen⟩ := flattenCount_replicate hl 2500 0 2500 (by omega)
    have hlen5000 : vs.length = 5000 := by rw [hlen]; rfl
    have hblen : bigLearners.length = 2500 := by
      rw [bigLearners, List.length_replicate]
    have hb : (0 : Nat) < bigLearners.length := by rw [hblen]; omega
    have hmin : min (0 + 2500 - 1) (bigLearners.length - 1) = 2499 := by
      rw [hblen]
      decide
    have h0 : bigLearners[0]? = some (sampleLearner 0) := by
      rw [bigLearners, List.getElem?_replicate, if_pos (by omega)]
    have h2499 : bigLearners[2499]? = some (sampleLearner 0) := by
      rw [bigLearners, List.getElem?_replicate, if_pos (by omega)]
    have hkeys : keysOK (sampleLearner 0) := by decide
    have hlog : logLineAccess bigLearners 0 2499 = .ok () :=
      logLineAccess_ok h0 h2499 hkeys hkeys
    have hflat : flattenWindow bigLearners 0 2500 = .ok vs := by
      rw [bigLearners, flattenWindow, Nat.sub_zero]
      exact hvs
    have h := (posted_windows_below_ceiling bigLearners 2500 0 goodNet0).2
      2500 0 0 vs hb
      (by rw [hmin]; exact hlog)
      (by rw [hmin]; exact hflat)
      (by rw [hlen5000]; decide)
    exact ⟨vs, hlen5000, by rw [h, hlen5000]⟩

/-- C3: when the flattened value count of the window at the start index
reaches the 5000-value ceiling, `delete_learners` stops right there: it
reports the configuration error (the logged too-many-values message,
carrying the count) and returns without raising, without posting that
window or any other and without queueing anything. -/
theorem ceiling_aborts_without_raising (learners : List Learner)
    (chunk_size beginning_idx : Nat) (net : Nat → NetEvent)
    (vals : List String)
    (hb : beginning_idx < learners.length)
    (hlog : logLineAccess learners beginning_idx
      (min (beginning_idx + chunk_size - 1) (learners.length - 1)) = .ok ())
    (hflat : flattenWindow learners beginning_idx
      (min (beginning_idx + chunk_size - 1) (learners.length - 1) + 1) =
        .ok vals)
    (hbig : MAXIMUM_USERS_IN_DELETE_REQUEST ≤ vals.length) :
    delete_learners learners chunk_size beginning_idx net =
      ⟨.configError vals.length, [], []⟩ := by
  rw [delete_learners]
  exact deleteLoop_config hb hlog hflat hbig


theorem ceiling_aborts_without_raising_witness :
    ∃ vals : List String, vals.length = 5000 ∧
      delete_learners bigLearners 2500 0 goodNet0 =
        ⟨.configError 5000, [], []⟩ := by
  have hl : learnerVals (sampleLearner 0) = .ok ["0", "user"] := rfl
  obtain ⟨vs, hvs, hlen⟩ := flattenCount_replicate hl 2500 0 2500 (by omega)
  have hlen5000 : vs.length = 5000 := by rw [hlen]; rfl
  have hblen : bigLearners.length = 2500 := by
    rw [bigLearners, List.length_replicate]
  have hb : (0 : Nat) < bigLearners.length := by rw [hblen]; omega
  have hmin : min (0 + 2500 - 1) (bigLearners.length - 1) = 2499 := by
    rw [hblen]
    decide
  have h0 : bigLearners[0]? = some (sampleLearner 0) := by
    rw [bigLearners, List.getElem?_replicate, if_pos (by omega)]
  have h2499 : bigLearners[2499]? = some (sampleLearner 0) := by
    rw [bigLearners, List.getElem?_replicate, if_pos (by omega)]
  have hkeys : keysOK (sampleLearner 0) := by decide
  have hlog : logLineAccess bigLearners 0 2499 = .ok () :=
    logLineAccess_ok h0 h2499 hkeys hkeys
  have hflat : flattenWindow bigLearners 0 2500 = .ok vs := by
    rw [bigLearners, flattenWindow, Nat.sub_zero]
    exact hvs
  have h := ceiling_aborts_without_raising bigLearners 2500 0 goodNet0 vs hb
    (by rw [hmin]; exact hlog)
    (by rw [hmin]; exact hflat)
    (by rw [hlen5000]; rfl)
  exact ⟨vs, hlen5000, by rw [h, hlen5000]⟩

/-! ### get_bulk_delete_status (C4) -/

/-- A sample parsed status body. -/
def statusBody : Json := .obj [("status", .str "done")]

/-- A network whose every attempt answers 200 with `statusBody`. -/
def statusNet : Nat → NetEvent :=
  fun _ => .response ⟨200, some statusBody, "body"⟩

/-- C4 counterexample: on a server answering valid JSON,
`get_bulk_delete_status` does not return the parsed body to the caller:
it returns Python `None` (the function only logs the body). -/
theorem get_status_does_not_return_body :
    (get_bulk_delete_status statusNet 0).ret = .ok none ∧
    (get_bulk_delete_status statusNet 0).ret ≠ .ok (some statusBody) := by
  refine ⟨rfl, ?_⟩
  have h0 : (get_bulk_delete_status statusNet 0).ret = .ok none := rfl
  rw [h0]
  simp

/-- C4 (amended): for every request, when the server returns valid JSON,
`get_bulk_delete_status` parses the body, passes it unchanged to the log,
and returns `None` to the caller. -/
theorem get_status_logs_body_returns_none (net : Nat → NetEvent) (k : Nat)
    (r : HttpResponse) (j : Json) (hk : net k = .response r)
    (hs : r.status < 400) (hj : r.json = some j) :
    get_bulk_delete_status net k = ⟨.ok none, some j, k + 1⟩ := by
  have hcall : _call_segment_get net k = (.ok r, k + 1) :=
    withHttpRetry_ok MAX_TRIES
      (withTimeoutRetry_ok (by simp [MAX_TRIES]) (rawCall_ok hk hs))
  rw [get_bulk_delete_status]
  simp only [hcall, hj]

theorem get_status_logs_body_returns_none_witness :
    get_bulk_delete_status statusNet 0 = ⟨.ok none, some statusBody, 1⟩ :=
  get_status_logs_body_returns_none statusNet 0
    ⟨200, some statusBody, "body"⟩ statusBody rfl (by decide) rfl

/-! ### Failed submissions (C6) -/

/-- C6 counterexample: a 404 on the only window raises the wrapped error
with the window indices but with an *empty* content — the raw response
text (here NF) is not included, because `resp_json` is still the initial
empty string when an `HTTPError` is caught. -/
theorem http_failure_content_empty :
    (delete_learners [sampleLearner 0] 1 0 netAll404).outcome =
      .raised (.wrapped 0 0 .empty) ∧
    (delete_learners [sampleLearner 0] 1 0 netAll404).outcome ≠
      .raised (.wrapped 0 0 (.text "NF")) := by
  refine ⟨rfl, ?_⟩
  have h0 : (delete_learners [sampleLearner 0] 1 0 netAll404).outcome =
      .raised (.wrapped 0 0 .empty) := rfl
  rw [h0]
  simp

/-- C6 (amended): when the window at the start index fails to submit —
HTTP error after retry exhaustion (wrapped content: empty, the raw
response is not included), response-decode failure (content: the raw
response text), or a response without the `regulate_id` field (content:
the parsed body) — `delete_learners` raises the wrapped error carrying the
window start/end indices, that window is the only POST made, and no
subsequent window is submitted. -/
theorem submission_failure_wraps_and_stops (learners : List Learner)
    (chunk_size beginning_idx : Nat) (net : Nat → NetEvent)
    (vals : List String)
    (hb : beginning_idx < learners.length)
    (hlog : logLineAccess learners beginning_idx
      (min (beginning_idx + chunk_size - 1) (learners.length - 1)) = .ok ())
    (hflat : flattenWindow learners beginning_idx
      (min (beginning_idx + chunk_size - 1) (learners.length - 1) + 1) =
        .ok vals)
    (hlen : vals.length < MAXIMUM_USERS_IN_DELETE_REQUEST) :
    (∀ r kk, _call_segment_post net 0 = (.error (.httpError r), kk) →
      delete_learners learners chunk_size beginning_idx net =
        ⟨.raised (.wrapped beginning_idx
            (min (beginning_idx + chunk_size - 1) (learners.length - 1))
            .empty),
          [⟨beginning_idx,
            min (beginning_idx + chunk_size - 1) (learners.length - 1),
            vals⟩], []⟩) ∧
    (∀ resp kk, _call_segment_post net 0 = (.ok resp, kk) →
      resp.json = none →
      delete_learners learners chunk_size beginning_idx net =
        ⟨.raised (.wrapped beginning_idx
            (min (beginning_idx + chunk_size - 1) (learners.length - 1))
            (.text resp.text)),
          [⟨beginning_idx,
            min (beginning_idx + chunk_size - 1) (learners.length - 1),
            vals⟩], []⟩) ∧
    (∀ resp kk j le, _call_segment_post net 0 = (.ok resp, kk) →
      resp.json = some j → jsonLookup j "regulate_id" = .error le →
      delete_learners learners chunk_size beginning_idx net =
        ⟨.raised (.wrapped beginning_idx
            (min (beginning_idx + chunk_size - 1) (learners.length - 1))
            (.json j)),
          [⟨beginning_idx,
            min (beginning_idx + chunk_size - 1) (learners.length - 1),
            vals⟩], []⟩) := by
  refine ⟨?_, ?_, ?_⟩
  · intro r kk hpost
    rw [delete_learners]
    exact deleteLoop_httpFail hb hlog hflat hlen hpost
  · intro resp kk hpost hjson
    rw [delete_learners]
    exact deleteLoop_decodeFail hb hlog hflat hlen hpost hjson
  · intro resp kk j le hpost hjson hrid
    rw [delete_learners]
    exact deleteLoop_lookupFail hb hlog hflat hlen hpost hjson hrid

theorem submission_failure_wraps_and_stops_witness :
    delete_learners [sampleLearner 0] 1 0 netAll404 =
      ⟨.raised (.wrapped 0 0 .empty), [⟨0, 0, ["0", "user"]⟩], []⟩ :=
  (submission_failure_wraps_and_stops [sampleLearner 0] 1 0 netAll404
    ["0", "user"] (by decide) rfl rfl (by decide)).1
    ⟨404, none, "NF"⟩ 1 rfl

/-! ### Retry then success (C7) -/

/-- C7: when the only window's submission gets a 500 response followed by
a 200 response carrying a `regulate_id` (two of the four allowed
attempts), the submission succeeds and the operation completes with the
`regulate_id` taken from the final, successful response. -/
theorem retry_then_success_returns_final_regulate_id
    (learners : List Learner) (chunk_size : Nat) (net : Nat → NetEvent)
    (r1 r2 : HttpResponse) (fields : List (String × Json)) (rid : Json)
    (hchunk : 1 ≤ chunk_size) (hne : learners ≠ [])
    (hcover : learners.length ≤ chunk_size)
    (hkeys : ∀ l ∈ learners, keysOK l)
    (hceil : windowCount learners 0 (learners.length - 1) <
      MAXIMUM_USERS_IN_DELETE_REQUEST)
    (h0 : net 0 = .response r1) (hs1 : r1.status = 500)
    (h1 : net 1 = .response r2) (hs2 : r2.status = 200)
    (hj : r2.json = some (.obj fields))
    (hrid : lookupField fields "regulate_id" = some rid) :
    (delete_learners learners chunk_size 0 net).outcome = .completed ∧
    (delete_learners learners chunk_size 0 net).queued = [rid] ∧
    (delete_learners learners chunk_size 0 net).posts.map
      (fun p => (p.startIdx, p.endIdx)) = [(0, learners.length - 1)] := by
  have hn1 : 1 ≤ learners.length := List.length_pos.mpr hne
  have hE : min (0 + chunk_size - 1) (learners.length - 1) =
      learners.length - 1 := by
    rw [Nat.min_eq_right (by omega)]
  obtain ⟨ls, hls, hmems⟩ := exists_getElem?_of_lt learners 0 (by omega)
  obtain ⟨le', hle, hmeme⟩ :=
    exists_getElem?_of_lt learners (learners.length - 1) (by omega)
  have hlog : logLineAccess learners 0
      (min (0 + chunk_size - 1) (learners.length - 1)) = .ok () := by
    rw [hE]
    exact logLineAccess_ok hls hle (hkeys ls hmems) (hkeys le' hmeme)
  obtain ⟨vs, hvs⟩ := flattenWindow_ok learners 0 (learners.length - 1 + 1)
    hkeys (by omega)
  have hflat : flattenWindow learners 0
      (min (0 + chunk_size - 1) (learners.length - 1) + 1) = .ok vs := by
    rw [hE]
    exact hvs
  have hcnt : vs.length < MAXIMUM_USERS_IN_DELETE_REQUEST := by
    rw [windowCount, hvs] at hceil
    exact hceil
  have htr0 : withTimeoutRetry net MAX_TRIES 0 =
      (.error (.httpError r1), 1) :=
    withTimeoutRetry_http (by simp [MAX_TRIES])
      (rawCall_err h0 (by omega) (by omega))
  have hgf : _http_status_giveup r1.status = false := by
    rw [hs1]
    decide
  have htr1 : withTimeoutRetry net MAX_TRIES 1 = (.ok r2, 2) :=
    withTimeoutRetry_ok (by simp [MAX_TRIES]) (rawCall_ok h1 (by omega))
  have hcall : _call_segment_post net 0 = (.ok r2, 2) := by
    rw [_call_segment_post, withHttpRetry_retry htr0 hgf (by simp [MAX_TRIES])]
    exact withHttpRetry_ok _ htr1
  have hlook : jsonLookup (.obj fields) "regulate_id" = .ok rid := by
    simp [jsonLookup, hrid]
  have hstep := deleteLoop_success_step learners.length
    (by omega : 0 < learners.length) hlog hflat hcnt hcall hj hlook
  have hexit : deleteLoop learners chunk_size net learners.length
      (0 + chunk_size) 2 = ⟨.completed, [], []⟩ := by
    obtain ⟨m, hm⟩ : ∃ m, learners.length = m + 1 := ⟨learners.length - 1, by omega⟩
    rw [hm]
    exact deleteLoop_exit (by omega)
  rw [delete_learners, hstep, hexit, hE]
  exact ⟨rfl, rfl, rfl⟩

/-- A network that answers 500 on attempt 0 and 200 with a `regulate_id`
body on every later attempt. -/
def net500then200 : Nat → NetEvent := fun k =>
  if k = 0 then .response ⟨500, none, "err"⟩
  else .response ⟨200, some (.obj [("regulate_id", .str "rid")]), "ok"⟩

theorem retry_then_success_returns_final_regulate_id_witness :
    (delete_learners [sampleLearner 0] 1 0 net500then200).outcome =
      .completed ∧
    (delete_learners [sampleLearner 0] 1 0 net500then200).queued =
      [.str "rid"] ∧
    (delete_learners [sampleLearner 0] 1 0 net500then200).posts.map
      (fun p => (p.startIdx, p.endIdx)) = [(0, 0)] :=
  retry_then_success_returns_final_regulate_id [sampleLearner 0] 1
    net500then200 ⟨500, none, "err"⟩
    ⟨200, some (.obj [("regulate_id", .str "rid")]), "ok"⟩
    [("regulate_id", .str "rid")] (.str "rid")
    (by decide) (by decide) (by decide) (by decide) (by decide)
    rfl rfl rfl rfl rfl rfl

/-! ### Missing required keys (C8) and flattening order (C9) -/

/-- C8: if any learner of the window at the start index lacks a required
key (`id` or `original_username`), `delete_learners` raises a `KeyError`
for a required key — from the log-line accesses or from flattening, both
before the submission — and no window is submitted (no POST, nothing
queued). -/
theorem missing_required_key_raises_before_submit (learners : List Learner)
    (chunk_size beginning_idx : Nat) (net : Nat → NetEvent)
    (hb : beginning_idx < learners.length)
    (hex : ∃ i l, beginning_idx ≤ i ∧
      i ≤ min (beginning_idx + chunk_size - 1) (learners.length - 1) ∧
      learners[i]? = some l ∧
      (dictGet l "id" = none ∨ dictGet l "original_username" = none)) :
    ∃ k, delete_learners learners chunk_size beginning_idx net =
      ⟨.raised (.keyError k), [], []⟩ ∧
      (k = "id" ∨ k = "original_username") := by
  have hn1 : 1 ≤ learners.length := by omega
  have hElt : min (beginning_idx + chunk_size - 1) (learners.length - 1) <
      learners.length := by omega
  rcases logLineAccess_cases learners beginning_idx
      (min (beginning_idx + chunk_size - 1) (learners.length - 1)) hb hElt
    with hok | ⟨k, hkerr, hkr⟩
  · obtain ⟨i, l, hi1, hi2, hil, hmiss⟩ := hex
    have hbad : ¬ keysOK l := by
      rcases hmiss with hm | hm <;>
        simp [keysOK, hm]
    obtain ⟨k, hflat, hkr⟩ := flattenWindow_err_of_missing learners
      beginning_idx
      (min (beginning_idx + chunk_size - 1) (learners.length - 1) + 1)
      ⟨i, l, hi1, by omega, hil, hbad⟩
    refine ⟨k, ?_, hkr⟩
    rw [delete_learners]
    exact deleteLoop_raised_flatten hb hok hflat
  · refine ⟨k, ?_, hkr⟩
    rw [delete_learners]
    exact deleteLoop_raised_log hb hkerr

/-- A learner missing the required `original_username` key. -/
def badLearner : Learner := [("id", .int 7)]

theorem missing_required_key_raises_before_submit_witness :
    ∃ k, delete_learners [badLearner] 1 0 goodNet0 =
      ⟨.raised (.keyError k), [], []⟩ ∧
      (k = "id" ∨ k = "original_username") :=
  missing_required_key_raises_before_submit [badLearner] 1 0 goodNet0
    (by decide) ⟨0, badLearner, by decide, by decide, rfl, Or.inr rfl⟩

/-- C9: flattening a learner emits the stringified required values (`id`
then `original_username`) followed by the stringified
`ecommerce_segment_id` value when that key is present, in
field-declaration order; when the optional key is absent it is simply
omitted and no error occurs. -/
theorem learner_flattening_order (l : Learner) (v1 v2 : PyVal)
    (h1 : dictGet l "id" = some v1)
    (h2 : dictGet l "original_username" = some v2) :
    learnerVals l = .ok ([text_type v1, text_type v2] ++
      (match dictGet l "ecommerce_segment_id" with
       | some v3 => [text_type v3]
       | none => [])) :=
  learnerVals_eq l v1 v2 h1 h2

/-- A learner carrying the optional `ecommerce_segment_id` key. -/
def optLearner : Learner :=
  [("id", .int 1), ("original_username", .str "u"),
   ("ecommerce_segment_id", .int 9)]

theorem learner_flattening_order_witness :
    learnerVals optLearner = .ok ["1", "u", "9"] ∧
    learnerVals (sampleLearner 0) = .ok ["0", "user"] := by
  constructor
  · have h := learner_flattening_order optLearner (.int 1) (.str "u") rfl rfl
    simpa using h
  · have h := learner_flattening_order (sampleLearner 0) (.int 0)
      (.str "user") rfl rfl
    simpa using h

/-! ### The window loop counter (C10) -/

/-- The loop-counter update of the while loop, `curr_idx += chunk_size`,
on Python integers. -/
def loopStep (chunk_size curr_idx : Int) : Int := curr_idx + chunk_size

/-- The loop counter after `k` iterations starting from `beginning_idx`. -/
def currAt (chunk_size beginning_idx : Int) (k : Nat) : Int :=
  beginning_idx + k * chunk_size

/-- The while-loop guard `curr_idx < len(learners)`. -/
def loopGuard (n curr_idx : Int) : Prop := curr_idx < n

/-- C10: each iteration advances `curr_idx` by exactly `chunk_size`; for
`chunk_size ≥ 1` (or a start index already past the end) the guard
eventually fails, so the window loop exits after finitely many windows;
for `chunk_size ≤ 0` with the start index in bounds the guard holds after
every number of iterations, so the loop never reaches its exit
condition. -/
theorem window_loop_progress_and_termination
    (n chunk_size beginning_idx : Int) :
    (∀ k, currAt chunk_size beginning_idx (k + 1) =
      loopStep chunk_size (currAt chunk_size beginning_idx k)) ∧
    ((1 ≤ chunk_size ∨ n ≤ beginning_idx) →
      ∃ k, ¬ loopGuard n (currAt chunk_size beginning_idx k)) ∧
    (chunk_size ≤ 0 → beginning_idx < n →
      ∀ k, loopGuard n (currAt chunk_size beginning_idx k)) := by
  refine ⟨?_, ?_, ?_⟩
  · intro k
    rw [currAt, currAt, loopStep]
    push_cast
    ring
  · intro h
    rcases h with h | h
    · refine ⟨(n - beginning_idx).toNat, ?_⟩
      rw [loopGuard, currAt, not_lt]
      have h1 : n - beginning_idx ≤ ((n - beginning_idx).toNat : Int) :=
        Int.self_le_toNat _
      have h2 : ((n - beginning_idx).toNat : Int) ≤
          ((n - beginning_idx).toNat : Int) * chunk_size :=
        le_mul_of_one_le_right (Int.ofNat_nonneg _) h
      linarith
    · exact ⟨0, by rw [loopGuard, currAt]; push_cast; omega⟩
  · intro hc hbn k
    have h1 : (k : Int) * chunk_size ≤ (k : Int) * 0 :=
      mul_le_mul_of_nonneg_left hc (Int.ofNat_nonneg k)
    rw [loopGuard, currAt]
    linarith

theorem window_loop_progress_and_termination_witness :
    currAt 1 0 1 = loopStep 1 (currAt 1 0 0) ∧
    (∃ k, ¬ loopGuard 3 (currAt 1 0 k)) ∧
    loopGuard 3 (currAt (-1) 0 5) :=
  ⟨(window_loop_progress_and_termination 3 1 0).1 0,
    (window_loop_progress_and_termination 3 1 0).2.1 (Or.inl (by norm_num)),
    (window_loop_progress_and_termination 3 (-1) 0).2.2 (by norm_num)
      (by norm_num) 5⟩

end SegmentApi
